import Mathlib

/-!
Shallow embedding of `src/Source/DynamicScene/GeoJsonDataSource.js`:
the GeoJSON ingestion pipeline (CRS resolution, type-driven dispatch,
entity identity resolution, geometry decoding) of `GeoJsonDataSource`.

Modelling conventions:
* JS numbers in coordinate arrays are modelled as `ℚ`.
* `Ellipsoid.WGS84.cartographicToCartesian (Cartographic.fromDegrees …)`
  (the body of `defaultCrsFunction`) is floating-point geodesy external to
  this file's scope; it is modelled symbolically by the constructor
  `Cartesian3.fromDegrees` applied to the raw components, which preserves
  the only property the development uses: the same transform applied to the
  same raw coordinate yields the same position.
* A JS object field that may be `undefined` is an `Option`; a field that
  distinguishes `undefined` from `null` (such as `crs` and
  `feature.geometry`) is an `Option (Option _)` (`none` = absent,
  `some none` = null).
* Promises are modelled by `Except`: a resolver returns the eventual
  resolution or rejection of its promise.  The synchronous prefix of
  `load` (argument check, type-handler lookup, CRS table lookups, the
  `clear`) happens before the promise is awaited, exactly as in the source.
* JS runtime crashes (reading `.length` of `undefined`) are modelled as a
  `LoadError.typeError` result.
* `createGuid()` produces globally unique ids; it is modelled by a fresh
  counter in a `Key.guid` namespace disjoint from document-supplied
  string ids (`Key.str`).
* Entity property mutation is modelled by appending to per-field
  assignment histories (`mergedStyles`, `positionHistory`,
  `vertexHistory`); the current value of a field is the last entry.
-/

/-- A raw GeoJSON coordinate: an array of numbers (lon, lat, optional height). -/
abbrev Coord := List ℚ

/-- Symbolic Cartesian position: the image of
`Ellipsoid.WGS84.cartographicToCartesian (Cartographic.fromDegrees lon lat height)`
on the raw components (each `none` when the coordinate array is too short,
i.e. the JS argument was `undefined`). -/
inductive Cartesian3 where
  | fromDegrees (lon lat height : Option ℚ)
deriving DecidableEq, Repr

/-- The type of a resolved coordinate transform (`crsFunction` in the source). -/
abbrev CrsFunction := Coord → Cartesian3

/-- `defaultCrsFunction(coordinates)` from the source: WGS84 degrees to Cartesian. -/
def defaultCrsFunction (coordinates : Coord) : Cartesian3 :=
  Cartesian3.fromDegrees coordinates[0]? coordinates[1]? coordinates[2]?

/-- GeoJSON geometry values, one constructor per entry of the source's
`geometryTypes` dispatch table; `unknown` is a geometry whose `type` string
has no table entry. -/
inductive Geometry where
  | point (coordinates : Coord)
  | multiPoint (coordinates : List Coord)
  | lineString (coordinates : List Coord)
  | multiLineString (coordinates : List (List Coord))
  | polygon (coordinates : List (List Coord))
  | multiPolygon (coordinates : List (List (List Coord)))
  | geometryCollection (geometries : List Geometry)
  | unknown (t : String)

/-- A GeoJSON node as dispatched on by the source's `geoJsonObjectTypes`
table: a `Feature` (optional `id`, and a `geometry` field that can be
absent, null, or a geometry), a `FeatureCollection`, or a bare geometry.
An unrecognized top-level `type` string is `.geom (.unknown t)`. -/
inductive GeoJson where
  | feature (id : Option String) (geometry : Option (Option Geometry))
  | featureCollection (features : List GeoJson)
  | geom (g : Geometry)

/-- The `properties` object of a `crs` descriptor (fields read by the source:
`name`, `href`, `type`). -/
structure CrsProps where
  name : Option String
  href : Option String
  type : Option String
deriving DecidableEq, Repr

/-- A non-null `crs` descriptor: its `type` string and optional `properties`. -/
structure CrsDescriptor where
  type : String
  properties : Option CrsProps
deriving DecidableEq, Repr

/-- A document handed to `load`: the root GeoJSON node plus the `crs` field
read off the root object (`none` = absent, `some none` = null). -/
structure Document where
  value : GeoJson
  crs : Option (Option CrsDescriptor)

/-- Errors of the pipeline; constructors carry the data interpolated into the
corresponding `DeveloperError` message of the source:
`missingArgument` = "geoJson is required.",
`unsupportedDocumentType` = "Unsupported GeoJSON object type: …",
`crsNull` = "crs is null.",
`crsPropertiesUndefined` = "crs.properties is undefined.",
`unknownCrsName` = "Unknown crs name: …",
`unresolvableCrsLink` = "Unable to resolve crs link: …",
`unknownCrsType` = "Unknown crs type: …",
`missingGeometry` = "feature.geometry is required.",
`unknownGeometryType` = "Unknown geometry type: …",
`typeError` = a JS TypeError crash,
`resolverFailure` = the rejection value of a user-registered crs link
resolver's promise. -/
inductive LoadError where
  | missingArgument
  | unsupportedDocumentType (t : String)
  | crsNull
  | crsPropertiesUndefined
  | unknownCrsName (name : Option String)
  | unresolvableCrsLink
  | unknownCrsType (t : String)
  | missingGeometry
  | unknownGeometryType (t : String)
  | typeError (msg : String)
  | resolverFailure (msg : String)
deriving DecidableEq, Repr

/-- A crs link resolver: given the link's `properties`, returns a promise
that resolves to a transform or rejects (`handler(properties)` in `load`). -/
abbrev CrsResolver := CrsProps → Except LoadError CrsFunction

/-- The three process-wide CRS tables of the source
(`GeoJsonDataSource.crsNames`, `.crsLinkHrefs`, `.crsLinkTypes`),
passed explicitly so theorems can quantify over registered entries. -/
structure Registries where
  crsNames : String → Option CrsFunction
  crsLinkHrefs : String → Option CrsResolver
  crsLinkTypes : String → Option CrsResolver

/-- The pre-seeded contents of `GeoJsonDataSource.crsNames`
(source lines 302–305). -/
def defaultCrsNames : String → Option CrsFunction := fun s =>
  if s = "urn:ogc:def:crs:OGC:1.3:CRS84" then some defaultCrsFunction
  else if s = "EPSG:4326" then some defaultCrsFunction
  else none

/-- The registries as initially seeded by the source: the two crs names
above, and empty `crsLinkHrefs` / `crsLinkTypes` tables. -/
def defaultRegistries : Registries :=
  ⟨defaultCrsNames, fun _ => none, fun _ => none⟩

/-- Entity key: an id string used verbatim (possibly suffixed), or a
generated guid (see the modelling note on `createGuid`). -/
inductive Key where
  | str (s : String)
  | guid (n : Nat)
deriving DecidableEq, Repr

/-- The three default style templates (`defaultPoint`, `defaultLine`,
`defaultPolygon`); their contents are externally owned `DynamicObject`s the
pipeline only merges, so a tag identifying which template was merged
suffices. -/
inductive StyleTemplate where
  | point
  | line
  | polygon
deriving DecidableEq, Repr

/-- A `DynamicObject` as produced by this pipeline, instrumented with
assignment histories: each `merge` / `position =` / `vertexPositions =`
executed on the object appends one entry; the current value of a field is
the last entry of its history. -/
structure Entity where
  geoJson : Option GeoJson := none
  mergedStyles : List StyleTemplate := []
  positionHistory : List Cartesian3 := []
  vertexHistory : List (List Cartesian3) := []

/-- `dynamicObject.merge(template)` (tracked by template tag). -/
def Entity.mergeStyle (t : StyleTemplate) (e : Entity) : Entity :=
  { e with mergedStyles := e.mergedStyles ++ [t] }

/-- `dynamicObject.position = new ConstantPositionProperty(p)`. -/
def Entity.setPosition (p : Cartesian3) (e : Entity) : Entity :=
  { e with positionHistory := e.positionHistory ++ [p] }

/-- `dynamicObject.vertexPositions = new ConstantPositionProperty(ps)`. -/
def Entity.setVertexPositions (ps : List Cartesian3) (e : Entity) : Entity :=
  { e with vertexHistory := e.vertexHistory ++ [ps] }

/-- `dynamicObject.geoJson = geojson` (the back-reference set by `createObject`). -/
def Entity.setGeoJson (gj : GeoJson) (e : Entity) : Entity :=
  { e with geoJson := some gj }

/-- The `DynamicObjectCollection`: entities in order of first creation. -/
structure Store where
  objects : List (Key × Entity)

/-- `dynamicObjectCollection.getObject(id)`. -/
def Store.getObject (s : Store) (k : Key) : Option Entity :=
  (s.objects.find? (fun p => p.1 = k)).map (·.2)

/-- `dynamicObjectCollection.getOrCreateObject(id)`: fetch-or-insert, first
creation order preserved. -/
def Store.getOrCreateObject (s : Store) (k : Key) : Store :=
  match s.getObject k with
  | some _ => s
  | none => ⟨s.objects ++ [(k, {})]⟩

/-- In-place mutation of the entity stored under `k`. -/
def Store.update (s : Store) (k : Key) (f : Entity → Entity) : Store :=
  ⟨s.objects.map (fun p => if p.1 = k then (p.1, f p.2) else p)⟩

/-- Pipeline state: the data source's collection plus the guid counter of
the `createGuid` model. -/
structure PState where
  store : Store
  nextGuid : Nat

/-- `this._dynamicObjectCollection.clear()`. -/
def PState.clearStore (st : PState) : PState :=
  { st with store := ⟨[]⟩ }

/-- Well-formedness of the guid model: every guid key already in the store
is below the counter, so the next generated guid is fresh. -/
def PState.WF (st : PState) : Prop :=
  ∀ p ∈ st.store.objects.map Prod.fst, ∀ n, p = Key.guid n → n < st.nextGuid

/-- The candidate id `id + "_" + i` built by `createObject`'s collision
loop.  A JS number holding the loop counter prints as its decimal digits,
which is `Nat.repr`. -/
def candidateId (id : String) (i : Nat) : String :=
  id ++ "_" ++ Nat.repr i

/-- The collision loop of `createObject`, probing `id_i`, `id_(i+1)`, … ;
fuelled, with fuel chosen large enough (see `resolveCollidingId`) that the
out-of-fuel branch is unreachable. -/
def probeFrom (s : Store) (id : String) : Nat → Nat → String
  | i, 0 => candidateId id i
  | i, fuel+1 =>
    if (s.getObject (Key.str (candidateId id i))).isSome then
      probeFrom s id (i+1) fuel
    else
      candidateId id i

/-- The whole `while` loop of `createObject`: keep `id` itself if unused,
else the first unused `id_i` for `i = 2, 3, …`.  The fuel
`s.objects.length + 1` covers `s.objects.length + 1` pairwise-distinct
candidates, of which at most `s.objects.length` can be occupied, so the
loop always exits inside the fuel (proved in `probe_fresh`). -/
def resolveCollidingId (s : Store) (id : String) : String :=
  if (s.getObject (Key.str id)).isSome then
    probeFrom s id 2 (s.objects.length + 1)
  else
    id

/-- `createObject(geojson, dynamicObjectCollection)`: resolve the key
(guid unless the node is a `Feature` with an `id`), `getOrCreateObject`,
set the `geoJson` back-reference; returns the key of the affected entity. -/
def createObject (geojson : GeoJson) (st : PState) : Key × PState :=
  let keyed : Key × PState :=
    match geojson with
    | .feature (some id) _ =>
      (Key.str (resolveCollidingId st.store id), st)
    | _ =>
      (Key.guid st.nextGuid, { st with nextGuid := st.nextGuid + 1 })
  let store1 := keyed.2.store.getOrCreateObject keyed.1
  let store2 := store1.update keyed.1 (Entity.setGeoJson geojson)
  (keyed.1, { keyed.2 with store := store2 })

/-- `processPoint`. -/
def processPoint (crs : CrsFunction) (geojson : GeoJson) (coordinates : Coord)
    (st : PState) : PState :=
  let c := createObject geojson st
  let st1 := { c.2 with store := c.2.store.update c.1 (Entity.mergeStyle .point) }
  { st1 with store := st1.store.update c.1 (Entity.setPosition (crs coordinates)) }

/-- `processMultiPoint`: the `for` loop over `coordinates`. -/
def processMultiPoint (crs : CrsFunction) (geojson : GeoJson) :
    List Coord → PState → PState
  | [], st => st
  | c :: rest, st =>
    let o := createObject geojson st
    let st1 := { o.2 with store := o.2.store.update o.1 (Entity.mergeStyle .point) }
    let st2 := { st1 with store := st1.store.update o.1 (Entity.setPosition (crs c)) }
    processMultiPoint crs geojson rest st2

/-- `processLineString`. -/
def processLineString (crs : CrsFunction) (geojson : GeoJson)
    (coordinates : List Coord) (st : PState) : PState :=
  let o := createObject geojson st
  let positions := coordinates.map crs
  let st1 := { o.2 with store := o.2.store.update o.1 (Entity.mergeStyle .line) }
  { st1 with store := st1.store.update o.1 (Entity.setVertexPositions positions) }

/-- `processMultiLineString`: the `for` loop over `lineStrings`. -/
def processMultiLineString (crs : CrsFunction) (geojson : GeoJson) :
    List (List Coord) → PState → PState
  | [], st => st
  | lineString :: rest, st =>
    let o := createObject geojson st
    let positions := lineString.map crs
    let st1 := { o.2 with store := o.2.store.update o.1 (Entity.mergeStyle .line) }
    let st2 := { st1 with store := st1.store.update o.1 (Entity.setVertexPositions positions) }
    processMultiLineString crs geojson rest st2

/-- `processPolygon`: reads `geometry.coordinates[0]`; when `coordinates`
is empty that is `undefined` and the subsequent `coordinates.length` read
crashes (after the entity was already created). -/
def processPolygon (crs : CrsFunction) (geojson : GeoJson)
    (coordinates : List (List Coord)) (st : PState) :
    Except (LoadError × PState) PState :=
  let o := createObject geojson st
  match coordinates.head? with
  | none =>
    .error (.typeError "Cannot read property length of undefined", o.2)
  | some ring =>
    let positions := ring.map crs
    let st1 := { o.2 with store := o.2.store.update o.1 (Entity.mergeStyle .polygon) }
    .ok { st1 with store := st1.store.update o.1 (Entity.setVertexPositions positions) }

/-- The inner `for (q …)` loop of `processMultiPolygon`: runs once per
element of the outer ring, each iteration re-merging the default polygon
style and re-assigning `vertexPositions` on the same entity. -/
def multiPolygonInner (crs : CrsFunction) (k : Key) (ring : List Coord) :
    Nat → PState → PState
  | 0, st => st
  | q+1, st =>
    let positions := ring.map crs
    let st1 := { st with store := st.store.update k (Entity.mergeStyle .polygon) }
    let st2 := { st1 with store := st1.store.update k (Entity.setVertexPositions positions) }
    multiPolygonInner crs k ring q st2

/-- `processMultiPolygon`: the `for` loop over `polygons`; for each polygon
one entity is created, then `polygon[0]` is read (crash when the polygon
has no rings) and the inner loop runs `polygon[0].length` times. -/
def processMultiPolygon (crs : CrsFunction) (geojson : GeoJson) :
    List (List (List Coord)) → PState → Except (LoadError × PState) PState
  | [], st => .ok st
  | polygon :: rest, st =>
    let o := createObject geojson st
    match polygon.head? with
    | none =>
      .error (.typeError "Cannot read property length of undefined", o.2)
    | some ring =>
      let st1 := multiPolygonInner crs o.1 ring ring.length o.2
      processMultiPolygon crs geojson rest st1

mutual

/-- The `geometryTypes` dispatch: every call site of that table looks the
handler up by the geometry's `type` and throws "Unknown geometry type"
when there is no entry. -/
def processGeometry (crs : CrsFunction) (geojson : GeoJson) (g : Geometry)
    (st : PState) : Except (LoadError × PState) PState :=
  match g with
  | .point c => .ok (processPoint crs geojson c st)
  | .multiPoint cs => .ok (processMultiPoint crs geojson cs st)
  | .lineString cs => .ok (processLineString crs geojson cs st)
  | .multiLineString ls => .ok (processMultiLineString crs geojson ls st)
  | .polygon rings => processPolygon crs geojson rings st
  | .multiPolygon ps => processMultiPolygon crs geojson ps st
  | .geometryCollection gs => processGeometryList crs geojson gs st
  | .unknown t => .error (.unknownGeometryType t, st)

/-- `processGeometryCollection`: the loop over `geometryCollection.geometries`,
passing the enclosing `geoJson` node down as the id source. -/
def processGeometryList (crs : CrsFunction) (geojson : GeoJson) :
    List Geometry → PState → Except (LoadError × PState) PState
  | [], st => .ok st
  | g :: rest, st =>
    match processGeometry crs geojson g st with
    | .error e => .error e
    | .ok st1 => processGeometryList crs geojson rest st1

end

/-- The `geometry` field of a node (`undefined` on non-Feature nodes). -/
def GeoJson.geometryField : GeoJson → Option (Option Geometry)
  | .feature _ g => g
  | _ => none

/-- `processFeature`: requires `feature.geometry` present; `null` geometry
creates one bare entity; otherwise dispatches the geometry with the
Feature node as id source. -/
def processFeature (crs : CrsFunction) (feature : GeoJson) (st : PState) :
    Except (LoadError × PState) PState :=
  match feature.geometryField with
  | none => .error (.missingGeometry, st)
  | some none => .ok (createObject feature st).2
  | some (some g) => processGeometry crs feature g st

/-- `processFeatureCollection`: the loop over `featureCollection.features`. -/
def processFeatureList (crs : CrsFunction) :
    List GeoJson → PState → Except (LoadError × PState) PState
  | [], st => .ok st
  | f :: rest, st =>
    match processFeature crs f st with
    | .error e => .error e
    | .ok st1 => processFeatureList crs rest st1

/-- The `geoJsonObjectTypes` table lookup of `load`: returns the
unrecognized `type` string when there is no entry for the root node. -/
def rootHandlerMissing : GeoJson → Option String
  | .geom (.unknown t) => some t
  | _ => none

/-- `typeHandler(that, geoJson, geoJson, crsFunction, source)`: root
dispatch once a transform is available. -/
def dispatchRoot (crs : CrsFunction) (doc : GeoJson) (st : PState) :
    Except (LoadError × PState) PState :=
  match doc with
  | .feature id g => processFeature crs (.feature id g) st
  | .featureCollection fs => processFeatureList crs fs st
  | .geom g => processGeometry crs (.geom g) g st

/-- The CRS section of `load` (source lines 236–279).  The outer `Except`
is a synchronous throw (before the store is cleared); the inner `Except`
is the `crsPromise` (its error is an eventual rejection, observed only
after the clear). -/
def resolveCrs (reg : Registries) (crs : Option (Option CrsDescriptor)) :
    Except LoadError (Except LoadError CrsFunction) :=
  match crs with
  | none => .ok (.ok defaultCrsFunction)
  | some none => .error .crsNull
  | some (some c) =>
    match c.properties with
    | none => .error .crsPropertiesUndefined
    | some props =>
      if c.type = "name" then
        match (match props.name with
               | some n => reg.crsNames n
               | none => none) with
        | none => .error (.unknownCrsName props.name)
        | some f => .ok (.ok f)
      else if c.type = "link" then
        match (match props.href with
               | some h => reg.crsLinkHrefs h
               | none => none) with
        | some handler => .ok (handler props)
        | none =>
          match (match props.type with
                 | some t => reg.crsLinkTypes t
                 | none => none) with
          | some handler => .ok (handler props)
          | none => .error .unresolvableCrsLink
      else
        .error (.unknownCrsType c.type)

/-- `GeoJsonDataSource.prototype.load(geoJson, source)`:
argument check, type-handler lookup, CRS resolution (synchronous part),
`clear()`, then—once the `crsPromise` settles—root dispatch.
Returns the call's result together with the final pipeline state; a result
of `.error e` with the state unchanged is a synchronous throw, one with a
changed state is a rejection of the returned promise. -/
def load (reg : Registries) (geoJson : Option Document) (st : PState) :
    Except LoadError Unit × PState :=
  match geoJson with
  | none => (.error .missingArgument, st)
  | some doc =>
    match rootHandlerMissing doc.value with
    | some t => (.error (.unsupportedDocumentType t), st)
    | none =>
      match resolveCrs reg doc.crs with
      | .error e => (.error e, st)
      | .ok crsPromise =>
        let st1 := st.clearStore
        match crsPromise with
        | .error e => (.error e, st1)
        | .ok crsFunction =>
          match dispatchRoot crsFunction doc.value st1 with
          | .error e => (.error e.1, e.2)
          | .ok st2 => (.ok (), st2)

/-! ### Decimal printing of the collision counter

`createObject` builds candidate ids by string concatenation with the loop
counter, so distinctness of candidates reduces to injectivity of `Nat.repr`,
proved here against a structural reference `specDigits`. -/

/-- Reference decimal digit list of a natural number. -/
def specDigits (n : Nat) : List Char :=
  if n < 10 then [Nat.digitChar n]
  else specDigits (n / 10) ++ [Nat.digitChar (n % 10)]
decreasing_by exact Nat.div_lt_self (by omega) (by omega)

theorem toDigitsCore_accumulates (fuel : Nat) :
    ∀ (n : Nat) (l : List Char),
      Nat.toDigitsCore 10 fuel n l = Nat.toDigitsCore 10 fuel n [] ++ l := by
  induction fuel with
  | zero => intro n l; simp [Nat.toDigitsCore]
  | succ fuel ih =>
    intro n l
    simp only [Nat.toDigitsCore]
    by_cases h : n / 10 = 0
    · simp [h]
    · simp only [h, if_false]
      rw [ih (n / 10) [Nat.digitChar (n % 10)],
        ih (n / 10) (Nat.digitChar (n % 10) :: l), List.append_assoc]
      rfl

theorem specDigits_of_lt (n : Nat) (h : n < 10) :
    specDigits n = [Nat.digitChar n] := by
  rw [specDigits]
  simp [h]

theorem specDigits_of_ge (n : Nat) (h : ¬ n < 10) :
    specDigits n = specDigits (n / 10) ++ [Nat.digitChar (n % 10)] := by
  rw [specDigits]
  simp [h]

theorem toDigitsCore_eq_specDigits (fuel : Nat) :
    ∀ n : Nat, n < fuel → Nat.toDigitsCore 10 fuel n [] = specDigits n := by
  induction fuel with
  | zero => intro n h; omega
  | succ fuel ih =>
    intro n h
    simp only [Nat.toDigitsCore]
    by_cases h10 : n < 10
    · have hdiv : n / 10 = 0 := Nat.div_eq_of_lt h10
      have hmod : n % 10 = n := Nat.mod_eq_of_lt h10
      simp [hdiv, hmod, specDigits_of_lt n h10]
    · have hdiv : n / 10 ≠ 0 := by
        have : 1 ≤ n / 10 := (Nat.le_div_iff_mul_le (by omega)).mpr (by omega)
        omega
      simp only [hdiv, if_false]
      rw [toDigitsCore_accumulates]
      have hlt : n / 10 < fuel := by
        have : n / 10 < n := Nat.div_lt_self (by omega) (by omega)
        omega
      rw [ih (n / 10) hlt, specDigits_of_ge n h10]

theorem specDigits_ne_nil (n : Nat) : specDigits n ≠ [] := by
  rw [specDigits]
  by_cases h : n < 10 <;> simp [h]

theorem digitChar_inj_lt (a b : Nat) (ha : a < 10) (hb : b < 10)
    (h : Nat.digitChar a = Nat.digitChar b) : a = b := by
  interval_cases a <;> interval_cases b <;> simp_all [Nat.digitChar]

theorem specDigits_injective : ∀ m n : Nat, specDigits m = specDigits n → m = n := by
  intro m
  induction m using Nat.strong_induction_on with
  | _ m ih =>
    intro n h
    by_cases hm : m < 10 <;> by_cases hn : n < 10
    · rw [specDigits_of_lt m hm, specDigits_of_lt n hn] at h
      exact digitChar_inj_lt m n hm hn (List.singleton_inj.mp h)
    · rw [specDigits_of_lt m hm, specDigits_of_ge n hn] at h
      have hlen := congrArg List.length h
      have hne := specDigits_ne_nil (n / 10)
      simp only [List.length_append, List.length_singleton] at hlen
      have : (specDigits (n / 10)).length = 0 := by omega
      exact absurd (List.length_eq_zero.mp this) hne
    · rw [specDigits_of_ge m hm, specDigits_of_lt n hn] at h
      have hlen := congrArg List.length h
      have hne := specDigits_ne_nil (m / 10)
      simp only [List.length_append, List.length_singleton] at hlen
      have : (specDigits (m / 10)).length = 0 := by omega
      exact absurd (List.length_eq_zero.mp this) hne
    · rw [specDigits_of_ge m hm, specDigits_of_ge n hn] at h
      obtain ⟨h1, h2⟩ := List.append_inj' h (by simp)
      have hdiv : m / 10 = n / 10 :=
        ih (m / 10) (Nat.div_lt_self (by omega) (by omega)) (n / 10) h1
      have hmod : m % 10 = n % 10 :=
        digitChar_inj_lt _ _ (Nat.mod_lt _ (by omega)) (Nat.mod_lt _ (by omega))
          (List.singleton_inj.mp h2)
      omega

theorem natRepr_injective : ∀ m n : Nat, Nat.repr m = Nat.repr n → m = n := by
  intro m n h
  have hd : (Nat.repr m).data = (Nat.repr n).data := congrArg String.data h
  simp only [Nat.repr, Nat.toDigits, List.asString] at hd
  rw [toDigitsCore_eq_specDigits _ _ (Nat.lt_succ_self m),
    toDigitsCore_eq_specDigits _ _ (Nat.lt_succ_self n)] at hd
  exact specDigits_injective m n hd

theorem candidateId_injective (id : String) (a b : Nat)
    (h : candidateId id a = candidateId id b) : a = b := by
  apply natRepr_injective
  apply String.ext
  have := congrArg String.data h
  simp only [candidateId, String.data_append] at this
  rwa [List.append_assoc, List.append_assoc, List.append_cancel_left_eq,
    List.append_cancel_left_eq] at this

/-! ### Store lemmas -/

theorem getObject_isSome_iff (s : Store) (k : Key) :
    (s.getObject k).isSome ↔ k ∈ s.objects.map Prod.fst := by
  simp only [Store.getObject, Option.isSome_map', List.find?_isSome, List.mem_map]
  constructor
  · rintro ⟨p, hp, hk⟩
    exact ⟨p, hp, by simpa using hk⟩
  · rintro ⟨p, hp, hk⟩
    exact ⟨p, hp, by simpa using hk⟩

theorem getObject_eq_none_iff (s : Store) (k : Key) :
    s.getObject k = none ↔ k ∉ s.objects.map Prod.fst := by
  rw [← getObject_isSome_iff, ← Option.not_isSome_iff_eq_none]

theorem update_map_fst (s : Store) (k : Key) (f : Entity → Entity) :
    (s.update k f).objects.map Prod.fst = s.objects.map Prod.fst := by
  simp only [Store.update, List.map_map]
  apply List.map_congr_left
  intro p _
  by_cases h : p.1 = k <;> simp [h]

theorem update_length (s : Store) (k : Key) (f : Entity → Entity) :
    (s.update k f).objects.length = s.objects.length := by
  simp [Store.update]

theorem update_append_notMem (l m : List (Key × Entity)) (k : Key)
    (f : Entity → Entity) (h : k ∉ l.map Prod.fst) :
    (Store.update ⟨l ++ m⟩ k f).objects = l ++ (Store.update ⟨m⟩ k f).objects := by
  simp only [Store.update, List.map_append]
  have hl : l.map (fun p => if p.1 = k then (p.1, f p.2) else p) = l := by
    have : l.map (fun p => if p.1 = k then (p.1, f p.2) else p) = l.map id := by
      apply List.map_congr_left
      intro p hp
      have hne : p.1 ≠ k := by
        intro hc
        exact h (List.mem_map.mpr ⟨p, hp, hc⟩)
      simp [hne]
    rw [this, List.map_id]
  rw [hl]

/-! ### The collision probe finds a fresh key -/

theorem exists_free_candidate (s : Store) (id : String) (start : Nat) :
    ∃ j, start ≤ j ∧ j < start + s.objects.length + 1 ∧
      s.getObject (Key.str (candidateId id j)) = none := by
  by_contra hall
  push_neg at hall
  have hocc : ∀ j ∈ Finset.Ico start (start + s.objects.length + 1),
      Key.str (candidateId id j) ∈ s.objects.map Prod.fst := by
    intro j hj
    rw [Finset.mem_Ico] at hj
    have := hall j hj.1 hj.2
    rw [← getObject_isSome_iff]
    exact Option.ne_none_iff_isSome.mp this
  have hsub : (Finset.Ico start (start + s.objects.length + 1)).image
      (fun j => Key.str (candidateId id j)) ⊆ (s.objects.map Prod.fst).toFinset := by
    intro k hk
    rw [Finset.mem_image] at hk
    obtain ⟨j, hj, rfl⟩ := hk
    rw [List.mem_toFinset]
    exact hocc j hj
  have hinj : Set.InjOn (fun j => Key.str (candidateId id j))
      (Finset.Ico start (start + s.objects.length + 1)) := by
    intro a _ b _ hab
    exact candidateId_injective id a b (by injection hab)
  have hcard1 : ((Finset.Ico start (start + s.objects.length + 1)).image
      (fun j => Key.str (candidateId id j))).card = s.objects.length + 1 := by
    rw [Finset.card_image_of_injOn hinj, Nat.card_Ico]
    omega
  have hcard2 : (s.objects.map Prod.fst).toFinset.card ≤ s.objects.length := by
    have := List.toFinset_card_le (l := s.objects.map Prod.fst)
    simpa using this
  have := Finset.card_le_card hsub
  omega

theorem probeFrom_spec (s : Store) (id : String) :
    ∀ (fuel i : Nat),
      (∃ j, i ≤ j ∧ j < i + fuel ∧ s.getObject (Key.str (candidateId id j)) = none) →
      ∃ j, i ≤ j ∧ probeFrom s id i fuel = candidateId id j ∧
        s.getObject (Key.str (candidateId id j)) = none ∧
        ∀ m, i ≤ m → m < j → (s.getObject (Key.str (candidateId id m))).isSome := by
  intro fuel
  induction fuel with
  | zero =>
    intro i ⟨j, h1, h2, _⟩
    omega
  | succ fuel ih =>
    intro i ⟨j, hij, hlt, hfree⟩
    rw [probeFrom]
    by_cases hocc : (s.getObject (Key.str (candidateId id i))).isSome
    · rw [if_pos hocc]
      have hji : j ≠ i := by
        intro hc
        rw [hc] at hfree
        rw [hfree] at hocc
        simp at hocc
      obtain ⟨j', hij', heq, hfree', hmin⟩ :=
        ih (i + 1) ⟨j, by omega, by omega, hfree⟩
      refine ⟨j', by omega, heq, hfree', ?_⟩
      intro m him hmj
      by_cases hmi : m = i
      · rwa [hmi]
      · exact hmin m (by omega) hmj
    · rw [if_neg hocc]
      exact ⟨i, le_refl i, rfl, Option.not_isSome_iff_eq_none.mp hocc,
        fun m h1 h2 => by omega⟩

/-- The key produced by `createObject`'s collision loop is unused. -/
theorem resolveCollidingId_free (s : Store) (id : String) :
    s.getObject (Key.str (resolveCollidingId s id)) = none := by
  rw [resolveCollidingId]
  by_cases h : (s.getObject (Key.str id)).isSome
  · rw [if_pos h]
    obtain ⟨j, hj2, hj3, hjfree⟩ := exists_free_candidate s id 2
    obtain ⟨j', _, heq, hfree', _⟩ :=
      probeFrom_spec s id (s.objects.length + 1) 2 ⟨j, hj2, by omega, hjfree⟩
    rw [heq]
    exact hfree'
  · rw [if_neg h]
    exact Option.not_isSome_iff_eq_none.mp h

/-- First-free characterization of the collision loop: the id itself when
unused, else `id_i` for the least unused `i ≥ 2`. -/
theorem resolveCollidingId_first_free (s : Store) (id : String)
    (h : (s.getObject (Key.str id)).isSome) :
    ∃ i, 2 ≤ i ∧ resolveCollidingId s id = candidateId id i ∧
      s.getObject (Key.str (candidateId id i)) = none ∧
      ∀ m, 2 ≤ m → m < i → (s.getObject (Key.str (candidateId id m))).isSome := by
  rw [resolveCollidingId, if_pos h]
  obtain ⟨j, hj2, hj3, hjfree⟩ := exists_free_candidate s id 2
  exact probeFrom_spec s id (s.objects.length + 1) 2 ⟨j, hj2, by omega, hjfree⟩

/-! ### Entity accounting

Each decoding routine appends freshly keyed entities and only updates the
entities it created; these lemmas track the store as `old ++ new`. -/

/-- The next guid of a well-formed state is unused. -/
theorem WF_guid_free (st : PState) (hWF : st.WF) :
    st.store.getObject (Key.guid st.nextGuid) = none := by
  rw [getObject_eq_none_iff]
  intro hmem
  exact absurd (hWF _ hmem st.nextGuid rfl) (lt_irrefl _)

theorem WF_update (st : PState) (k : Key) (f : Entity → Entity) (h : st.WF) :
    ({ st with store := st.store.update k f } : PState).WF := by
  intro p hp
  rw [update_map_fst] at hp
  exact h p hp

theorem getOrCreate_update_fresh (s : Store) (k : Key) (gj : GeoJson)
    (h : s.getObject k = none) :
    ((s.getOrCreateObject k).update k (Entity.setGeoJson gj)).objects
      = s.objects ++ [(k, ⟨some gj, [], [], []⟩)] := by
  rw [Store.getOrCreateObject, h]
  have hk : k ∉ s.objects.map Prod.fst := (getObject_eq_none_iff s k).mp h
  rw [update_append_notMem s.objects [(k, ({} : Entity))] k _ hk]
  simp [Store.update, Entity.setGeoJson]

theorem createObject_objects (gj : GeoJson) (st : PState) (hWF : st.WF) :
    (createObject gj st).2.store.objects
      = st.store.objects ++ [((createObject gj st).1, ⟨some gj, [], [], []⟩)] := by
  cases gj with
  | feature id g =>
    cases id with
    | some s =>
      simp only [createObject]
      exact getOrCreate_update_fresh st.store _ _ (resolveCollidingId_free st.store s)
    | none =>
      simp only [createObject]
      exact getOrCreate_update_fresh st.store _ _ (WF_guid_free st hWF)
  | featureCollection fs =>
    simp only [createObject]
    exact getOrCreate_update_fresh st.store _ _ (WF_guid_free st hWF)
  | geom g =>
    simp only [createObject]
    exact getOrCreate_update_fresh st.store _ _ (WF_guid_free st hWF)

theorem createObject_WF (gj : GeoJson) (st : PState) (hWF : st.WF) :
    (createObject gj st).2.WF := by
  have hobj := createObject_objects gj st hWF
  intro p hp n hpn
  rw [hobj, List.map_append, List.mem_append] at hp
  rcases hp with hp | hp
  · have := hWF p hp n hpn
    cases gj with
    | feature id g => cases id <;> simp only [createObject] <;> omega
    | featureCollection fs => simp only [createObject]; omega
    | geom g => simp only [createObject]; omega
  · simp only [List.map_cons, List.map_nil, List.mem_singleton] at hp
    subst hp
    cases gj with
    | feature id g =>
      cases id with
      | some s => simp only [createObject] at hpn ⊢; exact absurd hpn (by simp)
      | none =>
        simp only [createObject] at hpn ⊢
        have hn : st.nextGuid = n := by injection hpn
        omega
    | featureCollection fs =>
      simp only [createObject] at hpn ⊢
      have hn : st.nextGuid = n := by injection hpn
      omega
    | geom g =>
      simp only [createObject] at hpn ⊢
      have hn : st.nextGuid = n := by injection hpn
      omega

theorem createObject_nextGuid (gj : GeoJson) (st : PState) :
    st.nextGuid ≤ (createObject gj st).2.nextGuid := by
  cases gj with
  | feature id g => cases id <;> simp [createObject]
  | featureCollection fs => simp [createObject]
  | geom g => simp [createObject]

/-- The key handed back by `createObject` is absent from the prior store. -/
theorem createObject_key_fresh (gj : GeoJson) (st : PState) (hWF : st.WF) :
    (createObject gj st).1 ∉ st.store.objects.map Prod.fst := by
  cases gj with
  | feature id g =>
    cases id with
    | some s =>
      simp only [createObject]
      exact (getObject_eq_none_iff _ _).mp (resolveCollidingId_free st.store s)
    | none =>
      simp only [createObject]
      exact (getObject_eq_none_iff _ _).mp (WF_guid_free st hWF)
  | featureCollection fs =>
    simp only [createObject]
    exact (getObject_eq_none_iff _ _).mp (WF_guid_free st hWF)
  | geom g =>
    simp only [createObject]
    exact (getObject_eq_none_iff _ _).mp (WF_guid_free st hWF)

/-- An update at a key outside the prefix `l` keeps the prefix and the
segment length. -/
theorem update_keeps_prefix (st : PState) (l new : List (Key × Entity)) (k : Key)
    (f : Entity → Entity) (h : st.store.objects = l ++ new)
    (hk : k ∉ l.map Prod.fst) :
    ∃ new', ({ st with store := st.store.update k f } : PState).store.objects
        = l ++ new' ∧ new'.length = new.length := by
  have hst : st.store = ⟨l ++ new⟩ := by
    cases hs : st.store with
    | mk o => simp only [hs] at h; rw [h]
  rw [hst]
  exact ⟨(Store.update ⟨new⟩ k f).objects, update_append_notMem l new k f hk,
    by rw [update_length]⟩

theorem appends_trans {st1 st2 st3 : PState} {a b : Nat}
    (h1 : ∃ new, st2.store.objects = st1.store.objects ++ new ∧ new.length = a)
    (h2 : ∃ new, st3.store.objects = st2.store.objects ++ new ∧ new.length = b) :
    ∃ new, st3.store.objects = st1.store.objects ++ new ∧ new.length = a + b := by
  obtain ⟨n1, e1, l1⟩ := h1
  obtain ⟨n2, e2, l2⟩ := h2
  exact ⟨n1 ++ n2, by rw [e2, e1, List.append_assoc], by simp [l1, l2]⟩

mutual

/-- Per-geometry entity expansion count, as enumerated by the spec:
Point → 1, MultiPoint → one per coordinate, LineString → 1,
MultiLineString → one per sub-array, Polygon → 1, MultiPolygon → one per
polygon; a GeometryCollection expands recursively. -/
def geomCount : Geometry → Nat
  | .point _ => 1
  | .multiPoint cs => cs.length
  | .lineString _ => 1
  | .multiLineString ls => ls.length
  | .polygon _ => 1
  | .multiPolygon ps => ps.length
  | .geometryCollection gs => geomCountList gs
  | .unknown _ => 0

def geomCountList : List Geometry → Nat
  | [] => 0
  | g :: gs => geomCount g + geomCountList gs

end

/-- Per-feature entity expansion count: the geometry's expansion, or 1 for a
null geometry. -/
def featureCount : GeoJson → Nat
  | .feature _ (some (some g)) => geomCount g
  | .feature _ (some none) => 1
  | _ => 0

theorem processPoint_appends (crs : CrsFunction) (gj : GeoJson) (c : Coord)
    (st : PState) (hWF : st.WF) :
    (∃ new, (processPoint crs gj c st).store.objects = st.store.objects ++ new
        ∧ new.length = 1)
    ∧ (processPoint crs gj c st).WF
    ∧ st.nextGuid ≤ (processPoint crs gj c st).nextGuid := by
  have hobj := createObject_objects gj st hWF
  have hfresh := createObject_key_fresh gj st hWF
  obtain ⟨n1, h1, l1⟩ := update_keeps_prefix (createObject gj st).2
    st.store.objects _ (createObject gj st).1 (Entity.mergeStyle .point) hobj hfresh
  obtain ⟨n2, h2, l2⟩ := update_keeps_prefix _
    st.store.objects n1 (createObject gj st).1 (Entity.setPosition (crs c)) h1 hfresh
  refine ⟨⟨n2, h2, by simp [l2, l1]⟩, ?_, ?_⟩
  · exact WF_update _ _ _ (WF_update _ _ _ (createObject_WF gj st hWF))
  · simpa [processPoint] using createObject_nextGuid gj st

theorem processMultiPoint_appends (crs : CrsFunction) (gj : GeoJson) :
    ∀ (cs : List Coord) (st : PState), st.WF →
    (∃ new, (processMultiPoint crs gj cs st).store.objects
        = st.store.objects ++ new ∧ new.length = cs.length)
    ∧ (processMultiPoint crs gj cs st).WF
    ∧ st.nextGuid ≤ (processMultiPoint crs gj cs st).nextGuid := by
  intro cs
  induction cs with
  | nil =>
    intro st hWF
    exact ⟨⟨[], by simp [processMultiPoint], by simp⟩, hWF, le_refl _⟩
  | cons c rest ih =>
    intro st hWF
    have hstep := processPoint_appends crs gj c st hWF
    have hrest := ih (processPoint crs gj c st) hstep.2.1
    have hshape : processMultiPoint crs gj (c :: rest) st
        = processMultiPoint crs gj rest (processPoint crs gj c st) := by
      simp [processMultiPoint, processPoint]
    rw [hshape]
    refine ⟨?_, hrest.2.1, le_trans hstep.2.2 hrest.2.2⟩
    have := appends_trans hstep.1 hrest.1
    simpa [Nat.add_comm] using this

theorem processLineString_appends (crs : CrsFunction) (gj : GeoJson)
    (cs : List Coord) (st : PState) (hWF : st.WF) :
    (∃ new, (processLineString crs gj cs st).store.objects = st.store.objects ++ new
        ∧ new.length = 1)
    ∧ (processLineString crs gj cs st).WF
    ∧ st.nextGuid ≤ (processLineString crs gj cs st).nextGuid := by
  have hobj := createObject_objects gj st hWF
  have hfresh := createObject_key_fresh gj st hWF
  obtain ⟨n1, h1, l1⟩ := update_keeps_prefix (createObject gj st).2
    st.store.objects _ (createObject gj st).1 (Entity.mergeStyle .line) hobj hfresh
  obtain ⟨n2, h2, l2⟩ := update_keeps_prefix _
    st.store.objects n1 (createObject gj st).1
    (Entity.setVertexPositions (cs.map crs)) h1 hfresh
  refine ⟨⟨n2, h2, by simp [l2, l1]⟩, ?_, ?_⟩
  · exact WF_update _ _ _ (WF_update _ _ _ (createObject_WF gj st hWF))
  · simpa [processLineString] using createObject_nextGuid gj st

theorem processMultiLineString_appends (crs : CrsFunction) (gj : GeoJson) :
    ∀ (ls : List (List Coord)) (st : PState), st.WF →
    (∃ new, (processMultiLineString crs gj ls st).store.objects
        = st.store.objects ++ new ∧ new.length = ls.length)
    ∧ (processMultiLineString crs gj ls st).WF
    ∧ st.nextGuid ≤ (processMultiLineString crs gj ls st).nextGuid := by
  intro ls
  induction ls with
  | nil =>
    intro st hWF
    exact ⟨⟨[], by simp [processMultiLineString], by simp⟩, hWF, le_refl _⟩
  | cons l rest ih =>
    intro st hWF
    have hstep := processLineString_appends crs gj l st hWF
    have hrest := ih (processLineString crs gj l st) hstep.2.1
    have hshape : processMultiLineString crs gj (l :: rest) st
        = processMultiLineString crs gj rest (processLineString crs gj l st) := by
      simp [processMultiLineString, processLineString]
    rw [hshape]
    refine ⟨?_, hrest.2.1, le_trans hstep.2.2 hrest.2.2⟩
    have := appends_trans hstep.1 hrest.1
    simpa [Nat.add_comm] using this

theorem processPolygon_appends (crs : CrsFunction) (gj : GeoJson)
    (rings : List (List Coord)) (st st' : PState) (hWF : st.WF)
    (h : processPolygon crs gj rings st = .ok st') :
    (∃ new, st'.store.objects = st.store.objects ++ new ∧ new.length = 1)
    ∧ st'.WF ∧ st.nextGuid ≤ st'.nextGuid := by
  cases rings with
  | nil => simp [processPolygon] at h
  | cons ring rest =>
    have hobj := createObject_objects gj st hWF
    have hfresh := createObject_key_fresh gj st hWF
    obtain ⟨n1, h1, l1⟩ := update_keeps_prefix (createObject gj st).2
      st.store.objects _ (createObject gj st).1 (Entity.mergeStyle .polygon) hobj hfresh
    obtain ⟨n2, h2, l2⟩ := update_keeps_prefix _
      st.store.objects n1 (createObject gj st).1
      (Entity.setVertexPositions (ring.map crs)) h1 hfresh
    simp only [processPolygon, List.head?_cons, Except.ok.injEq] at h
    subst h
    refine ⟨⟨n2, h2, by simp [l2, l1]⟩, ?_, ?_⟩
    · exact WF_update _ _ _ (WF_update _ _ _ (createObject_WF gj st hWF))
    · simpa using createObject_nextGuid gj st

theorem multiPolygonInner_shape (crs : CrsFunction) (k : Key) (ring : List Coord) :
    ∀ (q : Nat) (st : PState) (l seg : List (Key × Entity)),
      st.store.objects = l ++ seg → k ∉ l.map Prod.fst → st.WF →
      (∃ seg', (multiPolygonInner crs k ring q st).store.objects = l ++ seg'
          ∧ seg'.length = seg.length)
      ∧ (multiPolygonInner crs k ring q st).WF
      ∧ (multiPolygonInner crs k ring q st).nextGuid = st.nextGuid := by
  intro q
  induction q with
  | zero =>
    intro st l seg hobj hk hWF
    exact ⟨⟨seg, by simpa [multiPolygonInner] using hobj, rfl⟩, hWF, rfl⟩
  | succ q ih =>
    intro st l seg hobj hk hWF
    obtain ⟨s1, h1, l1⟩ := update_keeps_prefix st l seg k
      (Entity.mergeStyle .polygon) hobj hk
    obtain ⟨s2, h2, l2⟩ := update_keeps_prefix _ l s1 k
      (Entity.setVertexPositions (ring.map crs)) h1 hk
    have hWF2 := WF_update
      { st with store := st.store.update k (Entity.mergeStyle .polygon) }
      k (Entity.setVertexPositions (List.map crs ring))
      (WF_update st k (Entity.mergeStyle .polygon) hWF)
    have hnext := ih
      (PState.mk
        ((st.store.update k (Entity.mergeStyle StyleTemplate.polygon)).update
          k (Entity.setVertexPositions (List.map crs ring)))
        st.nextGuid)
      l s2 h2 hk hWF2
    simp only [multiPolygonInner]
    refine ⟨?_, hnext.2.1, hnext.2.2⟩
    obtain ⟨s3, h3, l3⟩ := hnext.1
    exact ⟨s3, h3, by omega⟩

theorem processMultiPolygon_appends (crs : CrsFunction) (gj : GeoJson) :
    ∀ (ps : List (List (List Coord))) (st st' : PState), st.WF →
      processMultiPolygon crs gj ps st = .ok st' →
      (∃ new, st'.store.objects = st.store.objects ++ new ∧ new.length = ps.length)
      ∧ st'.WF ∧ st.nextGuid ≤ st'.nextGuid := by
  intro ps
  induction ps with
  | nil =>
    intro st st' hWF h
    simp only [processMultiPolygon, Except.ok.injEq] at h
    subst h
    exact ⟨⟨[], by simp, rfl⟩, hWF, le_refl _⟩
  | cons polygon rest ih =>
    intro st st' hWF h
    cases hp : polygon.head? with
    | none => simp [processMultiPolygon, hp] at h
    | some ring =>
      simp only [processMultiPolygon, hp] at h
      have hobj := createObject_objects gj st hWF
      have hfresh := createObject_key_fresh gj st hWF
      have hWF1 := createObject_WF gj st hWF
      have hinner := multiPolygonInner_shape crs (createObject gj st).1 ring
        ring.length (createObject gj st).2 st.store.objects _ hobj hfresh hWF1
      obtain ⟨seg', hseg, hlen⟩ := hinner.1
      have hrest := ih _ st' hinner.2.1 h
      refine ⟨?_, hrest.2.1, ?_⟩
      · have hstep : ∃ new,
            (multiPolygonInner crs (createObject gj st).1 ring ring.length
              (createObject gj st).2).store.objects
            = st.store.objects ++ new ∧ new.length = 1 := ⟨seg', hseg, by simp [hlen]⟩
        have := appends_trans hstep hrest.1
        simpa [Nat.add_comm] using this
      · calc st.nextGuid ≤ (createObject gj st).2.nextGuid := createObject_nextGuid gj st
          _ = _ := hinner.2.2.symm
          _ ≤ st'.nextGuid := hrest.2.2

mutual

theorem processGeometry_appends (crs : CrsFunction) (gj : GeoJson) (g : Geometry)
    (st st' : PState) (hWF : st.WF) (h : processGeometry crs gj g st = .ok st') :
    (∃ new, st'.store.objects = st.store.objects ++ new ∧ new.length = geomCount g)
    ∧ st'.WF ∧ st.nextGuid ≤ st'.nextGuid := by
  cases g with
  | point c =>
    simp only [processGeometry, Except.ok.injEq] at h
    subst h
    exact processPoint_appends crs gj c st hWF
  | multiPoint cs =>
    simp only [processGeometry, Except.ok.injEq] at h
    subst h
    exact processMultiPoint_appends crs gj cs st hWF
  | lineString cs =>
    simp only [processGeometry, Except.ok.injEq] at h
    subst h
    exact processLineString_appends crs gj cs st hWF
  | multiLineString ls =>
    simp only [processGeometry, Except.ok.injEq] at h
    subst h
    exact processMultiLineString_appends crs gj ls st hWF
  | polygon rings =>
    simp only [processGeometry] at h
    exact processPolygon_appends crs gj rings st st' hWF h
  | multiPolygon ps =>
    simp only [processGeometry] at h
    exact processMultiPolygon_appends crs gj ps st st' hWF h
  | geometryCollection gs =>
    simp only [processGeometry] at h
    exact processGeometryList_appends crs gj gs st st' hWF h
  | unknown t =>
    simp [processGeometry] at h

theorem processGeometryList_appends (crs : CrsFunction) (gj : GeoJson)
    (gs : List Geometry) (st st' : PState) (hWF : st.WF)
    (h : processGeometryList crs gj gs st = .ok st') :
    (∃ new, st'.store.objects = st.store.objects ++ new
        ∧ new.length = geomCountList gs)
    ∧ st'.WF ∧ st.nextGuid ≤ st'.nextGuid := by
  cases gs with
  | nil =>
    simp only [processGeometryList, Except.ok.injEq] at h
    subst h
    exact ⟨⟨[], by simp, rfl⟩, hWF, le_refl _⟩
  | cons g rest =>
    simp only [processGeometryList] at h
    cases hg : processGeometry crs gj g st with
    | error e => rw [hg] at h; exact absurd h (by simp)
    | ok st1 =>
      rw [hg] at h
      have hstep := processGeometry_appends crs gj g st st1 hWF hg
      have hrest := processGeometryList_appends crs gj rest st1 st' hstep.2.1 h
      exact ⟨appends_trans hstep.1 hrest.1, hrest.2.1,
        le_trans hstep.2.2 hrest.2.2⟩

end

theorem processFeature_appends (crs : CrsFunction) (f : GeoJson) (st st' : PState)
    (hWF : st.WF) (h : processFeature crs f st = .ok st') :
    (∃ new, st'.store.objects = st.store.objects ++ new
        ∧ new.length = featureCount f)
    ∧ st'.WF ∧ st.nextGuid ≤ st'.nextGuid := by
  cases f with
  | feature id g =>
    cases g with
    | none => simp [processFeature, GeoJson.geometryField] at h
    | some g0 =>
      cases g0 with
      | none =>
        simp only [processFeature, GeoJson.geometryField, Except.ok.injEq] at h
        subst h
        refine ⟨⟨[((createObject (.feature id (some none)) st).1,
          ⟨some (.feature id (some none)), [], [], []⟩)],
          createObject_objects _ st hWF, rfl⟩,
          createObject_WF _ st hWF, createObject_nextGuid _ st⟩
      | some g =>
        simp only [processFeature, GeoJson.geometryField] at h
        exact processGeometry_appends crs (.feature id (some (some g))) g st st' hWF h
  | featureCollection fs => simp [processFeature, GeoJson.geometryField] at h
  | geom g => simp [processFeature, GeoJson.geometryField] at h

theorem processFeatureList_segments (crs : CrsFunction) :
    ∀ (fs : List GeoJson) (st st' : PState), st.WF →
      processFeatureList crs fs st = .ok st' →
      (∃ segs : List (List (Key × Entity)),
        st'.store.objects = st.store.objects ++ segs.flatten ∧
        List.Forall₂ (fun f seg => List.length seg = featureCount f) fs segs)
      ∧ st'.WF ∧ st.nextGuid ≤ st'.nextGuid := by
  intro fs
  induction fs with
  | nil =>
    intro st st' hWF h
    simp only [processFeatureList, Except.ok.injEq] at h
    subst h
    exact ⟨⟨[], by simp, List.Forall₂.nil⟩, hWF, le_refl _⟩
  | cons f rest ih =>
    intro st st' hWF h
    simp only [processFeatureList] at h
    cases hf : processFeature crs f st with
    | error e => rw [hf] at h; exact absurd h (by simp)
    | ok st1 =>
      rw [hf] at h
      have hstep := processFeature_appends crs f st st1 hWF hf
      have hrest := ih st1 st' hstep.2.1 h
      obtain ⟨new, hnew, hlen⟩ := hstep.1
      obtain ⟨segs, hsegs, hall⟩ := hrest.1
      refine ⟨⟨new :: segs, ?_, List.Forall₂.cons hlen hall⟩,
        hrest.2.1, le_trans hstep.2.2 hrest.2.2⟩
      rw [hsegs, hnew]
      simp

theorem clearStore_WF (st : PState) : st.clearStore.WF := by
  intro p hp
  simp [PState.clearStore] at hp

theorem forall2_length_sum {fs : List GeoJson} {segs : List (List (Key × Entity))}
    (h : List.Forall₂ (fun f seg => List.length seg = featureCount f) fs segs) :
    (segs.map List.length).sum = (fs.map featureCount).sum := by
  induction h with
  | nil => rfl
  | cons hfs _ ih => simp [hfs, ih]

/-- Initial pipeline state: empty collection, guid counter at zero. -/
def pInit : PState := ⟨⟨[]⟩, 0⟩

/-- The source lookup `GeoJsonDataSource.crsLinkHrefs[properties.href]`
(an absent `href` misses the table). -/
def lookupLinkHref (reg : Registries) (props : CrsProps) : Option CrsResolver :=
  match props.href with
  | some s => reg.crsLinkHrefs s
  | none => none

/-- The source lookup `GeoJsonDataSource.crsLinkTypes[properties.type]`. -/
def lookupLinkType (reg : Registries) (props : CrsProps) : Option CrsResolver :=
  match props.type with
  | some s => reg.crsLinkTypes s
  | none => none

/-! ### Claims -/

/-- C7: a call to `load` with an absent document fails with
`MissingArgument`, and a document whose `type` string has no Document
Dispatcher entry (e.g. "Widget") fails with `UnsupportedDocumentType`; in
both cases the Entity Store is left untouched (the final pipeline state is
the initial one: no clear, no entity creation). -/
theorem c7_untouched_store_on_bad_document (reg : Registries) (st : PState)
    (t : String) (crsField : Option (Option CrsDescriptor)) :
    load reg none st = (.error .missingArgument, st)
    ∧ load reg (some ⟨.geom (.unknown t), crsField⟩) st
        = (.error (.unsupportedDocumentType t), st) :=
  ⟨rfl, rfl⟩

/-- C9: for any geometry payload and any initial state, loading with
`crs = {type: "name", properties: {name: "urn:ogc:def:crs:OGC:1.3:CRS84"}}`
is identical to loading with the `crs` field omitted: both resolve to
`defaultCrsFunction`. -/
theorem c9_crs84_same_as_default (node : GeoJson) (st : PState) :
    load defaultRegistries
      (some ⟨node, some (some ⟨"name",
        some ⟨some "urn:ogc:def:crs:OGC:1.3:CRS84", none, none⟩⟩)⟩) st
    = load defaultRegistries (some ⟨node, none⟩) st := by
  simp only [load]
  cases h : rootHandlerMissing node with
  | some t => rfl
  | none => simp [resolveCrs, defaultRegistries, defaultCrsNames]

/-- C10: `GeoJsonDataSource.crsNames` is pre-seeded with "EPSG:4326" in
addition to "urn:ogc:def:crs:OGC:1.3:CRS84", both bound to
`defaultCrsFunction`, so loading with `crs = {type: "name",
properties: {name: "EPSG:4326"}}` is identical to loading with no `crs`. -/
theorem c10_epsg4326_same_as_default :
    defaultCrsNames "EPSG:4326" = some defaultCrsFunction
    ∧ defaultCrsNames "urn:ogc:def:crs:OGC:1.3:CRS84" = some defaultCrsFunction
    ∧ ∀ (node : GeoJson) (st : PState),
        load defaultRegistries
          (some ⟨node, some (some ⟨"name", some ⟨some "EPSG:4326", none, none⟩⟩)⟩) st
        = load defaultRegistries (some ⟨node, none⟩) st := by
  refine ⟨rfl, rfl, ?_⟩
  intro node st
  simp only [load]
  cases h : rootHandlerMissing node with
  | some t => rfl
  | none => simp [resolveCrs, defaultRegistries, defaultCrsNames]

/-- C6: a Feature with a present-but-null `geometry` loads successfully and
produces exactly one entity with no position assignment, no vertex-position
assignment and no default style merged; a Feature with an absent `geometry`
fails with `MissingGeometry`. -/
theorem c6_null_geometry_feature (st : PState) (oid : Option String) :
    (load defaultRegistries (some ⟨.feature oid (some none), none⟩) st).1 = .ok ()
    ∧ (∃ k, (load defaultRegistries
        (some ⟨.feature oid (some none), none⟩) st).2.store.objects
        = [(k, ⟨some (.feature oid (some none)), [], [], []⟩)])
    ∧ (load defaultRegistries (some ⟨.feature oid none, none⟩) st).1
        = .error .missingGeometry := by
  cases oid with
  | some id =>
    refine ⟨rfl, ⟨Key.str id, ?_⟩, rfl⟩
    simp [load, resolveCrs, dispatchRoot, processFeature, GeoJson.geometryField,
      createObject, resolveCollidingId, Store.getObject, Store.getOrCreateObject,
      Store.update, PState.clearStore, Entity.setGeoJson, rootHandlerMissing,
      defaultRegistries]
  | none =>
    refine ⟨rfl, ⟨Key.guid st.nextGuid, ?_⟩, rfl⟩
    simp [load, resolveCrs, dispatchRoot, processFeature, GeoJson.geometryField,
      createObject, resolveCollidingId, Store.getObject, Store.getOrCreateObject,
      Store.update, PState.clearStore, Entity.setGeoJson, rootHandlerMissing,
      defaultRegistries]

/-- C8: for a `crs` of type "link", `properties.href` is looked up in the
href-keyed resolver table first; only on a miss is `properties.type` looked
up in the type-keyed table; if both miss the load fails with
`UnresolvableCrsLink`, and otherwise the matched resolver is invoked with
the link's `properties` to yield the transform. -/
theorem c8_link_resolver_precedence (reg : Registries) (props : CrsProps) :
    (∀ s r, props.href = some s → reg.crsLinkHrefs s = some r →
      resolveCrs reg (some (some ⟨"link", some props⟩)) = .ok (r props))
    ∧ (∀ s r, lookupLinkHref reg props = none →
        props.type = some s → reg.crsLinkTypes s = some r →
        resolveCrs reg (some (some ⟨"link", some props⟩)) = .ok (r props))
    ∧ (lookupLinkHref reg props = none → lookupLinkType reg props = none →
        resolveCrs reg (some (some ⟨"link", some props⟩))
          = .error .unresolvableCrsLink) := by
  refine ⟨?_, ?_, ?_⟩
  · intro s r hhref hr
    simp [resolveCrs, hhref, hr]
  · intro s r hmiss htype hr
    simp only [lookupLinkHref] at hmiss
    simp [resolveCrs, hmiss, htype, hr]
  · intro hmiss1 hmiss2
    simp only [lookupLinkHref] at hmiss1
    simp only [lookupLinkType] at hmiss2
    simp [resolveCrs, hmiss1, hmiss2]

def c8Href : CrsResolver := fun _ => .ok defaultCrsFunction

def c8Type : CrsResolver := fun _ => .error (.resolverFailure "type resolver")

def c8Reg : Registries :=
  { defaultRegistries with
      crsLinkHrefs := fun s => if s = "http://crs.invalid/a" then some c8Href else none,
      crsLinkTypes := fun s => if s = "proj4" then some c8Type else none }

def c8Props : CrsProps := ⟨none, some "http://crs.invalid/a", some "proj4"⟩

/-- Witness for C8: with both tables matching, the href resolver wins; with
only a type entry, the type resolver is used; with neither, the link is
unresolvable. -/
theorem c8_link_resolver_precedence_witness :
    resolveCrs c8Reg (some (some ⟨"link", some c8Props⟩)) = .ok (c8Href c8Props)
    ∧ resolveCrs c8Reg (some (some ⟨"link", some ⟨none, none, some "proj4"⟩⟩))
        = .ok (c8Type ⟨none, none, some "proj4"⟩)
    ∧ resolveCrs c8Reg (some (some ⟨"link", some ⟨none, none, none⟩⟩))
        = .error .unresolvableCrsLink :=
  ⟨(c8_link_resolver_precedence c8Reg c8Props).1 "http://crs.invalid/a" c8Href rfl rfl,
   (c8_link_resolver_precedence c8Reg ⟨none, none, some "proj4"⟩).2.1 "proj4" c8Type
     rfl rfl rfl,
   (c8_link_resolver_precedence c8Reg ⟨none, none, none⟩).2.2 rfl rfl⟩

def c1Resolver : CrsResolver := fun _ => .error (.resolverFailure "boom")

def c1Reg : Registries :=
  { defaultRegistries with
      crsLinkHrefs := fun s =>
        if s = "http://crs.invalid/async" then some c1Resolver else none }

def c1Doc : Document :=
  ⟨.geom (.point [0, 0]),
   some (some ⟨"link", some ⟨none, some "http://crs.invalid/async", none⟩⟩)⟩

def c1Prior : PState := ⟨⟨[(.str "prior", ⟨none, [], [], []⟩)]⟩, 0⟩

/-- Counterexample to C1 as stated: a crs link whose registered resolver's
promise rejects makes `load` fail with that error, but the Entity Store has
already been cleared — the prior contents are not retained. -/
theorem c1_counterexample_async_failure_clears :
    (load c1Reg (some c1Doc) c1Prior).1 = .error (.resolverFailure "boom")
    ∧ (load c1Reg (some c1Doc) c1Prior).2.store.objects = []
    ∧ c1Prior.store.objects ≠ [] :=
  ⟨rfl, rfl, by simp [c1Prior]⟩

/-- C1 amended: `load` clears the Entity Store after the synchronous part of
CRS resolution but before the crs promise is awaited.  Hence a synchronous
CRS failure (null crs, missing properties, unknown name, unresolvable link,
unknown type) leaves the store untouched, while a failure delivered by the
crs promise (an asynchronous link resolver rejection) occurs after the
store has been cleared, leaving it empty. -/
theorem c1_store_vs_crs_failure (reg : Registries) (doc : Document) (st : PState)
    (e : LoadError) (hroot : rootHandlerMissing doc.value = none) :
    (resolveCrs reg doc.crs = .error e → load reg (some doc) st = (.error e, st))
    ∧ (resolveCrs reg doc.crs = .ok (.error e) →
        load reg (some doc) st = (.error e, st.clearStore)) := by
  constructor
  · intro hres
    simp [load, hroot, hres]
  · intro hres
    simp [load, hroot, hres]

/-- Witness for C1: a null crs fails synchronously, store untouched; the
rejecting link resolver of the counterexample fails via the promise, store
cleared. -/
theorem c1_store_vs_crs_failure_witness :
    load defaultRegistries (some ⟨.geom (.point [0, 0]), some none⟩) c1Prior
      = (.error .crsNull, c1Prior)
    ∧ load c1Reg (some c1Doc) c1Prior
      = (.error (.resolverFailure "boom"), c1Prior.clearStore) :=
  ⟨(c1_store_vs_crs_failure defaultRegistries
      ⟨.geom (.point [0, 0]), some none⟩ c1Prior .crsNull rfl).1 rfl,
   (c1_store_vs_crs_failure c1Reg c1Doc c1Prior
      (.resolverFailure "boom") rfl).2 rfl⟩

def c2Doc : Document := ⟨.geom (.multiPolygon [[[[0, 0], [1, 1]]]]), none⟩

/-- C2 evaluated at the failing input: a MultiPolygon with one polygon whose
outer ring has two vertices loads successfully and creates one entity per
polygon, but that entity's `vertexPositions` field is assigned twice (once
per outer-ring vertex) and the default polygon style is merged twice — the
inner loop of `processMultiPolygon` re-merges and re-assigns per vertex,
contradicting the claim that the position field is set exactly once. -/
theorem c2_multipolygon_reassigns_vertex_field :
    (load defaultRegistries (some c2Doc) pInit).1 = .ok ()
    ∧ (load defaultRegistries (some c2Doc) pInit).2.store.objects.length = 1
    ∧ (load defaultRegistries (some c2Doc) pInit).2.store.objects.map
        (fun p => p.2.vertexHistory.length) = [2]
    ∧ (load defaultRegistries (some c2Doc) pInit).2.store.objects.map
        (fun p => p.2.mergedStyles) = [[.polygon, .polygon]] :=
  ⟨rfl, rfl, rfl, rfl⟩

/-- Counterexample to C3 as stated: a Polygon whose `coordinates` is the
empty array does not yield a degenerate entity — decoding crashes
(`coordinates[0]` is `undefined` and its `.length` is read). -/
theorem c3_counterexample_empty_polygon_crashes :
    (load defaultRegistries (some ⟨.geom (.polygon []), none⟩) pInit).1
      = .error (.typeError "Cannot read property length of undefined") := rfl

/-- C3 amended: for empty coordinate arrays, LineString yields one entity
with an empty vertex-position sequence; Point yields one entity whose single
position is the transform applied to the empty coordinate array; the
per-element kinds (MultiPoint, MultiLineString, MultiPolygon) yield zero
entities and succeed; but Polygon crashes with a TypeError after creating
one bare entity, because `coordinates[0]` is `undefined`. -/
theorem c3_empty_coordinate_arrays (st : PState) :
    (load defaultRegistries (some ⟨.geom (.lineString []), none⟩) st).1 = .ok ()
    ∧ (load defaultRegistries (some ⟨.geom (.lineString []), none⟩) st).2.store.objects
        = [(.guid st.nextGuid, ⟨some (.geom (.lineString [])), [.line], [], [[]]⟩)]
    ∧ (load defaultRegistries (some ⟨.geom (.point []), none⟩) st).1 = .ok ()
    ∧ (load defaultRegistries (some ⟨.geom (.point []), none⟩) st).2.store.objects
        = [(.guid st.nextGuid, ⟨some (.geom (.point [])), [.point],
            [.fromDegrees none none none], []⟩)]
    ∧ load defaultRegistries (some ⟨.geom (.multiPoint []), none⟩) st
        = (.ok (), st.clearStore)
    ∧ load defaultRegistries (some ⟨.geom (.multiLineString []), none⟩) st
        = (.ok (), st.clearStore)
    ∧ load defaultRegistries (some ⟨.geom (.multiPolygon []), none⟩) st
        = (.ok (), st.clearStore)
    ∧ (load defaultRegistries (some ⟨.geom (.polygon []), none⟩) st).1
        = .error (.typeError "Cannot read property length of undefined")
    ∧ (load defaultRegistries (some ⟨.geom (.polygon []), none⟩) st).2.store.objects
        = [(.guid st.nextGuid, ⟨some (.geom (.polygon [])), [], [], []⟩)] := by
  refine ⟨rfl, ?_, rfl, ?_, rfl, rfl, rfl, rfl, ?_⟩
  · simp [load, resolveCrs, dispatchRoot, processGeometry, processLineString,
      createObject, Store.getObject, Store.getOrCreateObject, Store.update,
      PState.clearStore, Entity.setGeoJson, Entity.mergeStyle,
      Entity.setVertexPositions, rootHandlerMissing, defaultRegistries]
  · simp [load, resolveCrs, dispatchRoot, processGeometry, processPoint,
      createObject, Store.getObject, Store.getOrCreateObject, Store.update,
      PState.clearStore, Entity.setGeoJson, Entity.mergeStyle,
      Entity.setPosition, defaultCrsFunction, rootHandlerMissing,
      defaultRegistries]
  · simp [load, resolveCrs, dispatchRoot, processGeometry, processPolygon,
      createObject, Store.getObject, Store.getOrCreateObject, Store.update,
      PState.clearStore, Entity.setGeoJson, rootHandlerMissing,
      defaultRegistries]

def c4Doc : Document :=
  ⟨.featureCollection
    [.feature (some "abc") (some (some (.point [0, 0]))),
     .feature (some "abc") (some (some (.point [1, 1])))], none⟩

/-- C4: two Features with the same explicit id "abc" in one load produce
entities keyed "abc" and "abc_2"; in general a Feature id colliding with an
existing store key gets suffixes `_2`, `_3`, … incremented until the first
unused key, and a node that is not a Feature, or has no id, gets a fresh
guid key (unused in any well-formed state). -/
theorem c4_entity_identity_resolution :
    ((load defaultRegistries (some c4Doc) pInit).1 = .ok ()
      ∧ (load defaultRegistries (some c4Doc) pInit).2.store.objects.map Prod.fst
        = [Key.str "abc", Key.str "abc_2"])
    ∧ (∀ (s : Store) (id : String),
        (s.getObject (.str id) = none → resolveCollidingId s id = id)
        ∧ ((s.getObject (.str id)).isSome →
            ∃ i, 2 ≤ i ∧ resolveCollidingId s id = candidateId id i
              ∧ s.getObject (.str (candidateId id i)) = none
              ∧ ∀ m, 2 ≤ m → m < i →
                  (s.getObject (.str (candidateId id m))).isSome))
    ∧ (∀ (st : PState) (id : String) (g : Option (Option Geometry)),
        (createObject (.feature (some id) g) st).1
          = Key.str (resolveCollidingId st.store id))
    ∧ (∀ (st : PState) (g : Option (Option Geometry)),
        (createObject (.feature none g) st).1 = Key.guid st.nextGuid)
    ∧ (∀ (st : PState) (g : Geometry),
        (createObject (.geom g) st).1 = Key.guid st.nextGuid)
    ∧ (∀ (st : PState) (fs : List GeoJson),
        (createObject (.featureCollection fs) st).1 = Key.guid st.nextGuid)
    ∧ (∀ st : PState, st.WF → st.store.getObject (Key.guid st.nextGuid) = none) := by
  refine ⟨⟨rfl, rfl⟩, ?_, fun st id g => rfl, fun st g => rfl,
    fun st g => rfl, fun st fs => rfl, fun st hWF => WF_guid_free st hWF⟩
  intro s id
  constructor
  · intro h
    simp [resolveCollidingId, h]
  · exact resolveCollidingId_first_free s id

/-- Witness for C4: the general clauses applied at concrete stores — a free
id is kept verbatim; with "abc" and "abc_2" occupied the loop lands on
"abc_3"; the fresh-guid clause at the empty initial state. -/
theorem c4_entity_identity_resolution_witness :
    resolveCollidingId ⟨[]⟩ "abc" = "abc"
    ∧ (∃ i, 2 ≤ i
        ∧ resolveCollidingId
            ⟨[(.str "abc", ⟨none, [], [], []⟩), (.str "abc_2", ⟨none, [], [], []⟩)]⟩
            "abc" = candidateId "abc" i
        ∧ Store.getObject
            ⟨[(.str "abc", ⟨none, [], [], []⟩), (.str "abc_2", ⟨none, [], [], []⟩)]⟩
            (.str (candidateId "abc" i)) = none)
    ∧ pInit.store.getObject (Key.guid pInit.nextGuid) = none := by
  refine ⟨(c4_entity_identity_resolution.2.1 ⟨[]⟩ "abc").1 rfl, ?_, ?_⟩
  · obtain ⟨i, hi, heq, hfree, _⟩ :=
      (c4_entity_identity_resolution.2.1
        ⟨[(.str "abc", ⟨none, [], [], []⟩), (.str "abc_2", ⟨none, [], [], []⟩)]⟩
        "abc").2 rfl
    exact ⟨i, hi, heq, hfree⟩
  · exact c4_entity_identity_resolution.2.2.2.2.2.2 pInit
      (by intro p hp; simp [pInit] at hp)

/-- C5: a successful `load` of a FeatureCollection produces exactly the
per-feature entity segments, in features-array order, with no entity from
any prior load surviving: the final store is the concatenation of one
segment per feature whose length is that feature's geometry expansion count
(Point → 1, MultiPoint → one per coordinate, LineString → 1,
MultiLineString → one per sub-array, Polygon → 1, MultiPolygon → one per
polygon, null geometry → 1), and the total entity count is the sum of the
per-feature counts. -/
theorem c5_feature_collection_order_and_count (reg : Registries)
    (fs : List GeoJson) (crsField : Option (Option CrsDescriptor))
    (st st' : PState)
    (h : load reg (some ⟨.featureCollection fs, crsField⟩) st = (.ok (), st')) :
    ∃ segs : List (List (Key × Entity)),
      st'.store.objects = segs.flatten
      ∧ List.Forall₂ (fun f seg => List.length seg = featureCount f) fs segs
      ∧ st'.store.objects.length = (fs.map featureCount).sum := by
  simp only [load, rootHandlerMissing] at h
  cases hres : resolveCrs reg crsField with
  | error e => rw [hres] at h; simp at h
  | ok p =>
    rw [hres] at h
    cases p with
    | error e => simp at h
    | ok crsFn =>
      simp only [dispatchRoot] at h
      cases hd : processFeatureList crsFn fs st.clearStore with
      | error e => rw [hd] at h; simp at h
      | ok st2 =>
        rw [hd] at h
        simp only [Prod.mk.injEq, true_and] at h
        subst h
        obtain ⟨segs, hflat, hall⟩ :=
          (processFeatureList_segments crsFn fs st.clearStore st2
            (clearStore_WF st) hd).1
        have hempty : st.clearStore.store.objects = [] := rfl
        rw [hempty, List.nil_append] at hflat
        refine ⟨segs, hflat, hall, ?_⟩
        rw [hflat, List.length_flatten, forall2_length_sum hall]

def c5Doc : Document :=
  ⟨.featureCollection
    [.feature none (some (some (.point [0, 0]))),
     .feature none (some (some (.multiPoint [[1, 1], [2, 2]]))),
     .feature none (some none)], none⟩

/-- Witness for C5: a concrete FeatureCollection (Point, two-coordinate
MultiPoint, null geometry) loads into segments of lengths 1, 2, 1 in
feature order, four entities in total. -/
theorem c5_feature_collection_order_and_count_witness :
    ∃ segs : List (List (Key × Entity)),
      (load defaultRegistries (some c5Doc) pInit).2.store.objects = segs.flatten
      ∧ List.Forall₂ (fun f seg => List.length seg = featureCount f)
          [GeoJson.feature none (some (some (.point [0, 0]))),
           GeoJson.feature none (some (some (.multiPoint [[1, 1], [2, 2]]))),
           GeoJson.feature none (some none)] segs
      ∧ (load defaultRegistries (some c5Doc) pInit).2.store.objects.length = 4 := by
  obtain ⟨segs, h1, h2, h3⟩ :=
    c5_feature_collection_order_and_count defaultRegistries
      [GeoJson.feature none (some (some (.point [0, 0]))),
       GeoJson.feature none (some (some (.multiPoint [[1, 1], [2, 2]]))),
       GeoJson.feature none (some none)]
      none pInit (load defaultRegistries (some c5Doc) pInit).2 rfl
  exact ⟨segs, h1, h2, by simpa using h3⟩
